import Mathlib

/-
Verification of the simulation orchestration and statistical-aggregation
layer of the particle-accelerator shielding simulator.

The Python source (geant4_simulation.py) is embedded shallowly:
  - numeric values (Python floats) are modelled as exact rationals;
  - Python exceptions are modelled with Except over an explicit error type;
  - the process pool of run_simulation is modelled by an explicit list of
    per-trial outcomes in submission order together with a completion
    order, a list of submission indices, since as_completed yields the
    futures in an arbitrary completion order;
  - the module-level singleton G4RunManagerSingleton is modelled as
    explicit state passing.
-/

namespace RadShield

/-- Errors raised by the embedded code: ZeroDivisionError from Python
float division, an engine-level failure inside one trial carrying an
arbitrary code, and the unreachable out-of-range list access. -/
inductive PyError where
  | zeroDivision : PyError
  | engineError : ℕ → PyError
  | indexError : PyError
deriving DecidableEq

/-- Decidable equality on Except values, used to evaluate concrete runs. -/
instance {ε α : Type} [DecidableEq ε] [DecidableEq α] : DecidableEq (Except ε α) :=
  fun a b =>
    match a, b with
    | Except.error x, Except.error y =>
        if h : x = y then Decidable.isTrue (h ▸ rfl)
        else Decidable.isFalse (fun hc => h (by injection hc))
    | Except.error _, Except.ok _ => Decidable.isFalse (fun hc => Except.noConfusion hc)
    | Except.ok _, Except.error _ => Decidable.isFalse (fun hc => Except.noConfusion hc)
    | Except.ok x, Except.ok y =>
        if h : x = y then Decidable.isTrue (h ▸ rfl)
        else Decidable.isFalse (fun hc => h (by injection hc))

/-- Python int() applied to a float: truncation toward zero. -/
def pyInt (q : ℚ) : ℤ := if 0 ≤ q then ⌊q⌋ else ⌈q⌉

/-- Python float division: raises ZeroDivisionError on a zero divisor,
otherwise returns the exact quotient. -/
def pyDiv (a b : ℚ) : Except PyError ℚ :=
  if b = 0 then Except.error PyError.zeroDivision else Except.ok (a / b)

/-- State of the class G4RunManagerSingleton inside one worker process:
the stored G4RunManager handle, if one was constructed, and the number of
times the one-time component registration, which registers the detector
construction and the physics list and then calls Initialize on the run
manager, has executed. -/
structure SingletonState where
  manager : Option ℕ
  initCount : ℕ
deriving DecidableEq

/-- G4RunManagerSingleton.get_instance: if no instance is stored,
construct a fresh run manager, run the one-time component registration on
it, store it; otherwise return the stored instance unchanged. The fresh
argument models the handle a new G4RunManager() construction would
yield. -/
def get_instance (s : SingletonState) (fresh : ℕ) : ℕ × SingletonState :=
  match s.manager with
  | none => (fresh, { manager := some fresh, initCount := s.initCount + 1 })
  | some m => (m, s)

/-- The session-acquisition step of run_simulation_instance: its first
statement obtains the run manager through G4RunManagerSingleton.get_instance.
The per-trial work that follows reads the manager but does not touch the
fields of the singleton state. -/
def run_simulation_instance_session (s : SingletonState) (fresh : ℕ) : ℕ × SingletonState :=
  get_instance s fresh

/-- Repeated run_simulation_instance invocations inside one worker
process: thread the singleton state through successive session
acquisitions, recording the handle each invocation obtained. -/
def sessionCalls : SingletonState → List ℕ → List ℕ × SingletonState
  | s, [] => ([], s)
  | s, f :: fs =>
      let p := run_simulation_instance_session s f
      let rest := sessionCalls p.2 fs
      (p.1 :: rest.1, rest.2)

/-- The progress value run_simulation emits for the completed future
whose submission index is i in a batch of n futures:
int((futures.index(future) + 1) / len(futures) * 100). list.index finds
the future by identity, hence returns the submission index. -/
def emitValue (n : ℕ) (i : ℕ) : ℤ := pyInt (((i : ℚ) + 1) / (n : ℚ) * 100)

/-- The aggregation loop of run_simulation: iterate over the futures in
completion order; add each result to the running total, re-raising the
trial error if the future failed; when a progress callback was supplied,
emit the progress value for the completed future. Returns the final total
together with the emitted progress values in emission order. -/
def run_batch_loop (cb : Bool) (futures : List (Except PyError ℚ)) :
    List ℕ → ℚ → List ℤ → Except PyError (ℚ × List ℤ)
  | [], total, ems => Except.ok (total, ems.reverse)
  | i :: rest, total, ems =>
      match futures.getD i (Except.error PyError.indexError) with
      | Except.error e => Except.error e
      | Except.ok r =>
          run_batch_loop cb futures rest (total + r)
            (if cb then emitValue futures.length i :: ems else ems)

/-- The body of run_simulation after dispatch: total starts at 0 and the
futures are consumed in completion order. -/
def run_batch (cb : Bool) (futures : List (Except PyError ℚ)) (order : List ℕ) :
    Except PyError (ℚ × List ℤ) :=
  run_batch_loop cb futures order 0 []

/-- Observable outcome of one run_simulation call: how many trials were
submitted to the pool, and the value the call returns or the exception it
re-raises. -/
structure SimOutcome where
  trialsLaunched : ℕ
  result : Except PyError (ℚ × List ℤ)

/-- run_simulation: submits exactly 10 run_simulation_instance trials
with the given scenario parameters to a process pool, with no prior
validation of the parameters, then aggregates the futures in completion
order. The engine argument models run_simulation_instance as executed in
worker process k; the cb flag records whether a progress callback was
supplied. -/
def run_simulation (cb : Bool) (photon_energy shielding_thickness density : ℚ)
    (engine : ℚ → ℚ → ℚ → ℕ → Except PyError ℚ) (order : List ℕ) : SimOutcome :=
  let futures := (List.range 10).map (fun k => engine photon_energy shielding_thickness density k)
  { trialsLaunched := futures.length, result := run_batch cb futures order }

/-- calculate_attenuation from the source: total energy divided by the
product of initial energy and event count, with Python division
semantics. -/
def calculate_attenuation (total_energy_deposited initial_energy num_events : ℚ) :
    Except PyError ℚ :=
  pyDiv total_energy_deposited (initial_energy * num_events)

/-- calculate_dose_rate from the source: deposited dose rate is total
energy over events, divided by photon energy; the result is the initial
dose rate scaled by the deposited dose rate. -/
def calculate_dose_rate (total_energy_deposited initial_dose_rate photon_energy num_events : ℚ) :
    Except PyError ℚ :=
  match pyDiv total_energy_deposited num_events with
  | Except.error e => Except.error e
  | Except.ok q =>
      match pyDiv q photon_energy with
      | Except.error e => Except.error e
      | Except.ok deposited_dose_rate => Except.ok (initial_dose_rate * deposited_dose_rate)

/-- calculate_uncertainty from the source: 1.0 divided by one more than
the event count. All call sites pass a nonnegative integer loop index. -/
def calculate_uncertainty (num_events : ℕ) : ℚ := 1 / ((num_events : ℚ) + 1)

/-- Evaluating the aggregation loop when every consumed future succeeded:
the loop returns the starting total plus the sum of the consumed results,
and, when the callback is present, one emission per consumed future in
completion order. -/
theorem run_batch_loop_ok (cb : Bool) (es : List ℚ) :
    ∀ (order : List ℕ) (t : ℚ) (ems : List ℤ),
      (∀ i ∈ order, i < es.length) →
      run_batch_loop cb (es.map Except.ok) order t ems =
        Except.ok (t + (order.map (fun i => es.getD i 0)).sum,
          ems.reverse ++ (if cb then order.map (emitValue es.length) else [])) := by
  intro order
  induction order with
  | nil =>
      intro t ems _
      cases cb <;> simp [run_batch_loop]
  | cons i rest ih =>
      intro t ems h
      have hi : i < es.length := h i (List.mem_cons_self i rest)
      have hi2 : i < (es.map (Except.ok (ε := PyError))).length := by simpa using hi
      have hget : (es.map (Except.ok (ε := PyError))).getD i (Except.error PyError.indexError)
          = Except.ok (es.getD i 0) := by
        rw [List.getD_eq_getElem _ _ hi2, List.getD_eq_getElem _ _ hi]
        simp
      have hrest : ∀ j ∈ rest, j < es.length := fun j hj => h j (List.mem_cons_of_mem i hj)
      simp only [run_batch_loop, hget]
      rw [ih _ _ hrest]
      cases cb <;> simp [add_assoc]

/-- Reading every position of a list through getD recovers the list. -/
theorem map_getD_range (es : List ℚ) :
    (List.range es.length).map (fun i => es.getD i 0) = es := by
  apply List.ext_getElem
  · simp
  · intro i h1 h2
    simp [List.getD, List.getElem?_eq_getElem h2]

/-- C1: for every batch whose trials all succeed with deposited energies
es, and every completion order of those trials, run_simulation's
aggregation (the Trial Pool run_batch) returns exactly the sum of es;
the total is independent of the completion order. -/
theorem c1_run_batch_total_is_sum (cb : Bool) (es : List ℚ) (order : List ℕ)
    (hperm : List.Perm order (List.range es.length)) :
    (run_batch cb (es.map Except.ok) order).map Prod.fst = Except.ok es.sum := by
  have hb : ∀ i ∈ order, i < es.length := by
    intro i hi
    have := hperm.mem_iff.mp hi
    simpa using this
  have hsum : (order.map (fun i => es.getD i 0)).sum = es.sum := by
    have hp2 : List.Perm (order.map (fun i => es.getD i 0))
        ((List.range es.length).map (fun i => es.getD i 0)) := hperm.map _
    rw [hp2.sum_eq, map_getD_range]
  rw [run_batch, run_batch_loop_ok cb es order 0 [] hb, zero_add, hsum]
  rfl

/-- Witness for C1: a three-trial batch with energies 5, 7, 11 completing
in the order third, first, second returns total 23. -/
theorem c1_witness :
    List.Perm [2, 0, 1] (List.range ([(5 : ℚ), 7, 11]).length) ∧
    (run_batch true (([(5 : ℚ), 7, 11]).map Except.ok) [2, 0, 1]).map Prod.fst =
      Except.ok ([(5 : ℚ), 7, 11]).sum :=
  ⟨by decide, c1_run_batch_total_is_sum true [5, 7, 11] [2, 0, 1] (by decide)⟩

/-- Evaluating the aggregation loop when some consumed future failed:
the first failing future reached in completion order re-raises its error,
so the loop never returns a total. -/
theorem run_batch_loop_err (cb : Bool) (futures : List (Except PyError ℚ)) :
    ∀ (order : List ℕ) (t : ℚ) (ems : List ℤ),
      (∃ i ∈ order, ∃ e, futures.getD i (Except.error PyError.indexError) = Except.error e) →
      ∃ e, run_batch_loop cb futures order t ems = Except.error e := by
  intro order
  induction order with
  | nil =>
      intro t ems h
      rcases h with ⟨i, hi, _⟩
      simp at hi
  | cons i rest ih =>
      intro t ems h
      rcases h with ⟨j, hj, e, he⟩
      rcases List.mem_cons.mp hj with hji | hjr
      · subst hji
        refine ⟨e, ?_⟩
        simp only [run_batch_loop]
        rw [he]
      · cases hg : futures.getD i (Except.error PyError.indexError) with
        | error e2 =>
            refine ⟨e2, ?_⟩
            simp only [run_batch_loop]
            rw [hg]
        | ok r =>
            rcases ih (t + r) (if cb then emitValue futures.length i :: ems else ems)
              ⟨j, hjr, e, he⟩ with ⟨e3, h3⟩
            refine ⟨e3, ?_⟩
            simp only [run_batch_loop, hg]
            exact h3

/-- C3: if any one trial of the batch fails with an engine error, the
aggregation of run_simulation re-raises an error for every completion
order, and so never returns a partial total built from the remaining
trials. -/
theorem c3_trial_failure_surfaces_no_partial_sum (cb : Bool)
    (futures : List (Except PyError ℚ)) (order : List ℕ)
    (hperm : List.Perm order (List.range futures.length))
    (hfail : ∃ e, Except.error e ∈ futures) :
    ∃ e, run_batch cb futures order = Except.error e := by
  rcases hfail with ⟨e, he⟩
  rcases List.getElem_of_mem he with ⟨j, hj, hje⟩
  have hjo : j ∈ order := by
    apply hperm.mem_iff.mpr
    simpa using hj
  rw [run_batch]
  exact run_batch_loop_err cb futures order 0 []
    ⟨j, hjo, e, by rw [List.getD_eq_getElem _ _ hj, hje]⟩

/-- Witness for C3: in a batch of three trials whose second one raises an
engine error, the batch aborts with an error under the completion order
second, third, first. -/
theorem c3_witness :
    List.Perm [1, 2, 0]
      (List.range ([Except.ok (1 : ℚ), Except.error (PyError.engineError 6), Except.ok 2]).length) ∧
    (∃ e, Except.error e ∈
      [Except.ok (1 : ℚ), Except.error (PyError.engineError 6), Except.ok 2]) ∧
    (∃ e, run_batch true [Except.ok (1 : ℚ), Except.error (PyError.engineError 6), Except.ok 2]
      [1, 2, 0] = Except.error e) :=
  ⟨by decide, ⟨PyError.engineError 6, by simp⟩,
    c3_trial_failure_surfaces_no_partial_sum true
      [Except.ok (1 : ℚ), Except.error (PyError.engineError 6), Except.ok 2] [1, 2, 0]
      (by decide) ⟨PyError.engineError 6, by simp⟩⟩

/-- The running total computed by the aggregation loop does not depend on
whether a progress callback was supplied: the callback only changes the
emission log. -/
theorem run_batch_loop_total_ignores_callback (futures : List (Except PyError ℚ)) :
    ∀ (order : List ℕ) (t : ℚ) (ems1 ems2 : List ℤ),
      (run_batch_loop true futures order t ems1).map Prod.fst =
        (run_batch_loop false futures order t ems2).map Prod.fst := by
  intro order
  induction order with
  | nil =>
      intro t ems1 ems2
      simp [run_batch_loop, Except.map]
  | cons i rest ih =>
      intro t ems1 ems2
      cases hg : futures.getD i (Except.error PyError.indexError) with
      | error e =>
          simp only [run_batch_loop]
          rw [hg]
      | ok r =>
          simp only [run_batch_loop, hg]
          exact ih (t + r) _ _

/-- C10: the total deposited energy returned by run_simulation is the
same with and without a progress callback, for every scenario, engine
behaviour and completion order; so is the number of trials launched. -/
theorem c10_callback_cannot_change_total
    (photon_energy shielding_thickness density : ℚ)
    (engine : ℚ → ℚ → ℚ → ℕ → Except PyError ℚ) (order : List ℕ) :
    ((run_simulation true photon_energy shielding_thickness density engine order).result).map
        Prod.fst =
      ((run_simulation false photon_energy shielding_thickness density engine order).result).map
        Prod.fst ∧
    (run_simulation true photon_energy shielding_thickness density engine order).trialsLaunched =
      (run_simulation false photon_energy shielding_thickness density engine order).trialsLaunched := by
  constructor
  · simp only [run_simulation, run_batch]
    exact run_batch_loop_total_ignores_callback _ _ 0 [] []
  · rfl

/-- C2 evaluated at the failing input: a batch of 10 successful trials in
which the future submitted last completes first and the rest complete in
submission order. The code computes each progress value from the
submission index of the completed future, via futures.index, not from the
count of completed trials, so the emitted sequence starts at 100, drops
to 10, and its final value is 90: it is not non-decreasing and does not
end at 100 percent. -/
theorem c2_progress_emissions_at_failing_input :
    run_batch true (List.replicate 10 (Except.ok (2 : ℚ))) [9, 0, 1, 2, 3, 4, 5, 6, 7, 8] =
      Except.ok (20, [100, 10, 20, 30, 40, 50, 60, 70, 80, 90]) ∧
    ¬ List.Sorted (fun a b => a ≤ b) ([100, 10, 20, 30, 40, 50, 60, 70, 80, 90] : List ℤ) ∧
    ([100, 10, 20, 30, 40, 50, 60, 70, 80, 90] : List ℤ).getLast? ≠ some 100 := by
  refine ⟨?_, by decide, by decide⟩
  norm_num [run_batch, run_batch_loop, emitValue, pyInt, List.getD, List.replicate]

/-- Once the singleton stores a manager, every further session
acquisition returns that manager and leaves the state untouched. -/
theorem sessionCalls_after_init (m : ℕ) :
    ∀ (fs : List ℕ) (s : SingletonState), s.manager = some m →
      sessionCalls s fs = (List.replicate fs.length m, s) := by
  intro fs
  induction fs with
  | nil =>
      intro s _
      simp [sessionCalls]
  | cons f fs ih =>
      intro s hs
      have hstep : run_simulation_instance_session s f = (m, s) := by
        simp [run_simulation_instance_session, get_instance, hs]
      simp [sessionCalls, hstep, ih s hs, List.replicate]

/-- C4: starting from the fresh worker-process state, any nonempty
sequence of run_simulation_instance invocations runs the engine
initialization exactly once, during the first get_instance call, and
every invocation receives the handle constructed by that first call. -/
theorem c4_engine_initialized_exactly_once (f : ℕ) (fs : List ℕ) :
    sessionCalls { manager := none, initCount := 0 } (f :: fs) =
      (List.replicate (fs.length + 1) f, { manager := some f, initCount := 1 }) := by
  have h1 : run_simulation_instance_session { manager := none, initCount := 0 } f =
      (f, { manager := some f, initCount := 1 }) := by
    simp [run_simulation_instance_session, get_instance]
  have h2 := sessionCalls_after_init f fs { manager := some f, initCount := 1 } rfl
  simp [sessionCalls, h1, h2, List.replicate]

/-- C5 counterexample: with a non-positive initial photon energy of 0,
run_simulation launches all 10 trials and returns an ordinary total, so
the configuration error is neither detected before dispatch nor reported
synchronously, and trials are launched. -/
theorem c5_counterexample_invalid_energy_still_dispatches :
    (run_simulation false 0 68 (47 / 20) (fun _ _ _ _ => Except.ok 1)
      [0, 1, 2, 3, 4, 5, 6, 7, 8, 9]).trialsLaunched = 10 ∧
    (run_simulation false 0 68 (47 / 20) (fun _ _ _ _ => Except.ok 1)
      [0, 1, 2, 3, 4, 5, 6, 7, 8, 9]).result = Except.ok (10, []) := by
  constructor
  · rfl
  · norm_num [run_simulation, run_batch, run_batch_loop, List.getD, List.range_succ]

/-- C5 amended: run_simulation performs no validation of the scenario
parameters at all; even for a non-positive photon energy it dispatches
all 10 trials unconditionally and aggregates whatever the engine
returns. -/
theorem c5_amended_no_predispatch_validation (cb : Bool)
    (photon_energy shielding_thickness density : ℚ)
    (engine : ℚ → ℚ → ℚ → ℕ → Except PyError ℚ) (order : List ℕ)
    (hpe : photon_energy ≤ 0) :
    (run_simulation cb photon_energy shielding_thickness density engine order).trialsLaunched
        = 10 ∧
    (run_simulation cb photon_energy shielding_thickness density engine order).result =
      run_batch cb ((List.range 10).map
        (fun k => engine photon_energy shielding_thickness density k)) order :=
  ⟨rfl, rfl⟩

/-- Witness for C5 amended: at photon energy 0 the dispatch count is 10
and the result is the plain aggregation of the engine outcomes. -/
theorem c5_amended_witness :
    (0 : ℚ) ≤ 0 ∧
    ((run_simulation true 0 10 (47 / 20) (fun _ _ _ _ => Except.ok 2)
        [0, 1, 2, 3, 4, 5, 6, 7, 8, 9]).trialsLaunched = 10 ∧
      (run_simulation true 0 10 (47 / 20) (fun _ _ _ _ => Except.ok 2)
        [0, 1, 2, 3, 4, 5, 6, 7, 8, 9]).result =
        run_batch true ((List.range 10).map (fun _ => Except.ok 2))
          [0, 1, 2, 3, 4, 5, 6, 7, 8, 9]) :=
  ⟨le_refl 0,
    c5_amended_no_predispatch_validation true 0 10 (47 / 20) (fun _ _ _ _ => Except.ok 2)
      [0, 1, 2, 3, 4, 5, 6, 7, 8, 9] (le_refl 0)⟩

/-- C6 counterexample: for the negative initial energy -1 with one event,
calculate_attenuation returns the value -1 instead of signalling a domain
error, so negative inputs are not rejected. -/
theorem c6_counterexample_negative_energy_not_rejected :
    calculate_attenuation 1 (-1) 1 = Except.ok (-1) ∧
    calculate_attenuation 3 2 (-5) = Except.ok (-3 / 10) := by
  constructor <;> norm_num [calculate_attenuation, pyDiv]

/-- C6 amended: calculate_attenuation signals the division domain error
exactly when initial_energy = 0 or num_events = 0; for every other input,
including negative initial energies or event counts, it returns the
quotient without error. -/
theorem c6_amended_domain_error_iff_zero
    (total_energy_deposited initial_energy num_events : ℚ) :
    (calculate_attenuation total_energy_deposited initial_energy num_events =
        Except.error PyError.zeroDivision ↔ initial_energy = 0 ∨ num_events = 0) ∧
    (initial_energy ≠ 0 → num_events ≠ 0 →
      calculate_attenuation total_energy_deposited initial_energy num_events =
        Except.ok (total_energy_deposited / (initial_energy * num_events))) := by
  constructor
  · constructor
    · intro h
      by_contra hc
      push_neg at hc
      have hne : initial_energy * num_events ≠ 0 := mul_ne_zero hc.1 hc.2
      simp [calculate_attenuation, pyDiv, hne] at h
    · intro h
      have hz : initial_energy * num_events = 0 := by
        rcases h with h | h <;> simp [h]
      simp [calculate_attenuation, pyDiv, hz]
  · intro h1 h2
    simp [calculate_attenuation, pyDiv, mul_ne_zero h1 h2]

/-- Witness for C6 amended: for initial energy 2 and 5 events the
function returns the quotient. -/
theorem c6_amended_witness :
    (2 : ℚ) ≠ 0 ∧ (5 : ℚ) ≠ 0 ∧
    calculate_attenuation 3 2 5 = Except.ok (3 / (2 * 5)) :=
  ⟨by norm_num, by norm_num,
    (c6_amended_domain_error_iff_zero 3 2 5).2 (by norm_num) (by norm_num)⟩

/-- C7: on the claimed domain of positive initial energy and positive
event count, calculate_attenuation returns exactly the quotient of the
total energy by the product; it is linear in the total energy; and at the
end-to-end scenario values 20, 1, 10000 it returns 0.002. -/
theorem c7_attenuation_formula_linear_and_example :
    (∀ total_energy_deposited initial_energy num_events : ℚ,
        0 < initial_energy → 0 < num_events →
        calculate_attenuation total_energy_deposited initial_energy num_events =
          Except.ok (total_energy_deposited / (initial_energy * num_events))) ∧
    (∀ a b e1 e2 initial_energy num_events : ℚ,
        0 < initial_energy → 0 < num_events →
        calculate_attenuation (a * e1 + b * e2) initial_energy num_events =
          Except.ok (a * (e1 / (initial_energy * num_events)) +
            b * (e2 / (initial_energy * num_events)))) ∧
    calculate_attenuation 20 1 10000 = Except.ok 0.002 := by
  have hbase : ∀ total_energy_deposited initial_energy num_events : ℚ,
      0 < initial_energy → 0 < num_events →
      calculate_attenuation total_energy_deposited initial_energy num_events =
        Except.ok (total_energy_deposited / (initial_energy * num_events)) := by
    intro E I n hI hn
    simp [calculate_attenuation, pyDiv, (mul_pos hI hn).ne']
  refine ⟨hbase, ?_, by norm_num [calculate_attenuation, pyDiv]⟩
  intro a b e1 e2 I n hI hn
  rw [hbase (a * e1 + b * e2) I n hI hn]
  have hne : I * n ≠ 0 := (mul_pos hI hn).ne'
  congr 1
  field_simp

/-- Witness for C7: the attenuation of total energy 24 with initial
energy 2 and 4 events is 24 divided by 8. -/
theorem c7_witness :
    (0 : ℚ) < 2 ∧ (0 : ℚ) < 4 ∧
    calculate_attenuation 24 2 4 = Except.ok (24 / (2 * 4)) :=
  ⟨by norm_num, by norm_num,
    c7_attenuation_formula_linear_and_example.1 24 2 4 (by norm_num) (by norm_num)⟩

/-- C8: calculate_uncertainty is one over the successor of the event
count, is strictly decreasing in the event count, and equals 1 at 0. -/
theorem c8_uncertainty_formula_and_strict_decrease :
    (∀ n : ℕ, calculate_uncertainty n = 1 / ((n : ℚ) + 1)) ∧
    (∀ n : ℕ, calculate_uncertainty (n + 1) < calculate_uncertainty n) ∧
    calculate_uncertainty 0 = 1 := by
  refine ⟨fun n => rfl, ?_, by norm_num [calculate_uncertainty]⟩
  intro n
  have h1 : (0 : ℚ) < (n : ℚ) + 1 := by positivity
  have h2 : ((n : ℚ) + 1) < ((n : ℚ) + 1) + 1 := by linarith
  have h3 := one_div_lt_one_div_of_lt h1 h2
  have hcast : ((n + 1 : ℕ) : ℚ) + 1 = ((n : ℚ) + 1) + 1 := by push_cast; ring
  rw [calculate_uncertainty, calculate_uncertainty, hcast]
  exact h3

/-- C9: whenever photon energy and event count are nonzero,
calculate_dose_rate is exactly the attenuation computed with the photon
energy as initial energy, scaled by the initial dose rate. -/
theorem c9_dose_rate_is_scaled_attenuation
    (total_energy_deposited initial_dose_rate photon_energy num_events : ℚ)
    (hp : photon_energy ≠ 0) (hn : num_events ≠ 0) :
    calculate_dose_rate total_energy_deposited initial_dose_rate photon_energy num_events =
      (calculate_attenuation total_energy_deposited photon_energy num_events).map
        (fun a => initial_dose_rate * a) := by
  have hpn : photon_energy * num_events ≠ 0 := mul_ne_zero hp hn
  simp only [calculate_dose_rate, calculate_attenuation, pyDiv, if_neg hn, if_neg hp,
    if_neg hpn, Except.map]
  rw [div_div, mul_comm num_events photon_energy]

/-- Witness for C9: with photon energy 2 and 4 events, the dose rate of
total energy 24 at initial dose rate 3 is 3 times the attenuation. -/
theorem c9_witness :
    (2 : ℚ) ≠ 0 ∧ (4 : ℚ) ≠ 0 ∧
    calculate_dose_rate 24 3 2 4 =
      (calculate_attenuation 24 2 4).map (fun a => 3 * a) :=
  ⟨by norm_num, by norm_num,
    c9_dose_rate_is_scaled_attenuation 24 3 2 4 (by norm_num) (by norm_num)⟩

end RadShield
